import Mathlib

/-!
Verification of the task scheduler and PostgreSQL reconciliation engine of
the `mx` spreadsheet-ingestion service.

The development is a shallow embedding of the Go sources:

* `internal/task/task.go` / `scheduler.go` — task states, the task registry,
  `CancelTask`, and the `schedule` outcome race;
* the worker `processTask` — spreadsheet rows dispatched to the store;
* `internal/storage/postgresql/{upsert,delete,list}` — the transactional
  upsert / delete engine and the filtered `List` query, together with the
  SQL schema (`products` table with its positivity / non-empty-name domain
  constraints and the `(merchant_id, offer_id)` uniqueness key).

Machine integers (`int64`) are modelled as `Int`; `decimal.Decimal` prices
are modelled as an abstract `Int` value with decidable equality (no claim
depends on price arithmetic, only on equality of stored attributes).
The persisted table is modelled as a list of rows; transactional rollback is
modelled by every error path returning the caller's original table.
-/

namespace task

/-- Task states, from `internal/task/task.go` (`taskState` with
`Processing`, `Done`, `TimedOut`, `Canceled`, `Aborted`). -/
inductive taskState where
  | Processing
  | Done
  | TimedOut
  | Canceled
  | Aborted
deriving DecidableEq, Repr

/-- `dataPayload` from `task.go`: lines added, updated, removed and ignored
while processing the uploaded file (`int64` fields, modelled as `Int`). -/
structure dataPayload where
  added : Int
  updated : Int
  removed : Int
  ignored : Int
deriving DecidableEq, Repr

/-- `taskResult` from `task.go`: a `dataPayload` plus the error slot.  The Go
`error` value is modelled as an optional message. -/
structure taskResult where
  data : dataPayload
  error : Option String
deriving DecidableEq, Repr

/-- `task` from `task.go`: current state and result. -/
structure taskRecord where
  state : taskState
  result : taskResult
deriving DecidableEq, Repr

/-- The zeroed task value `NewTask` stores under the id before spawning the
worker (`scheduler.go`, `NewTask`): state `Processing`, all counters `0`. -/
def initialTask : taskRecord :=
  { state := .Processing
    result := { data := { added := 0, updated := 0, removed := 0, ignored := 0 }
                error := none } }

/-- Terminal states: every state except `Processing`. -/
def isTerminal : taskState → Bool
  | .Processing => false
  | _ => true

end task

namespace postgresql

/-- `Product` from `internal/storage/postgresql/entities.go`.  `int64` fields
become `Int`; the `decimal.Decimal` price is abstracted to an `Int` value
(claims depend only on decidable equality of stored attributes). -/
structure Product where
  MerchantID : Int
  OfferID : Int
  Name : String
  Price : Int
  Quantity : Int
deriving DecidableEq, Repr

/-- The `(merchant_id, offer_id)` uniqueness key of the `products` table
(`CONSTRAINT unique_ids_pair UNIQUE (merchant_id, offer_id)`). -/
def key (r : Product) : Int × Int := (r.MerchantID, r.OfferID)

/-- The persisted `products` table, one list entry per row. -/
abbrev Table := List Product

/-- Domain constraints of the `products` columns, from the SQL schema:
`merchant_id > 0`, `offer_id > 0`, `name` non-empty varchar(200),
`price > 0` and `quantity > 0`.  The temporary staging table is created
`LIKE products INCLUDING CONSTRAINTS INCLUDING INDEXES`, so a bulk copy of a
row violating one of these fails the transaction. -/
def productValid (r : Product) : Bool :=
  (0 < r.MerchantID : Bool) && (0 < r.OfferID : Bool) && (r.Name ≠ "" : Bool)
    && (r.Name.length ≤ 200 : Bool) && (0 < r.Price : Bool) && (0 < r.Quantity : Bool)

/-- Pairwise distinctness of the `(merchant_id, offer_id)` keys of a staged
batch.  The staging table copies the `unique_ids_pair` index, so a batch with
a repeated key fails during `CopyFrom`. -/
def keysNodup : List Product → Bool
  | [] => true
  | r :: rest => !(rest.any (fun x => key x == key r)) && keysNodup rest

/-- A staged batch loads into the temporary table exactly when every row
satisfies the column domains and no key repeats. -/
def stageOk (batch : List Product) : Bool :=
  batch.all productValid && keysNodup batch

/-- First row of the table carrying the given key, as the conflict target of
`ON CONFLICT (merchant_id, offer_id)` sees it. -/
def findRow (t : Table) (k : Int × Int) : Option Product :=
  t.find? (fun r => key r == k)

/-- One staged row through the merge statement
`INSERT ... ON CONFLICT (merchant_id, offer_id) DO UPDATE SET name, price,
quantity WHERE products.name <> excluded.name OR products.price <> excluded.price
OR products.quantity <> excluded.quantity RETURNING xmax` (`scheduler.go`
appended Upsert, lines 277-294).  Returns the new table and the row's
contribution to the `inserted` (`xmax = 0`) and `updated` (`xmax > 0`)
tallies; a conflicting row with no differing attribute is skipped by the
`WHERE` clause and returns no `xmax`, counting for neither.  `applyUpdate`
is the `DO UPDATE SET` assignment applied to the key-matching rows. -/
def applyUpdate (r x : Product) : Product :=
  if key x == key r then
    { x with Name := r.Name, Price := r.Price, Quantity := r.Quantity }
  else x

/-- See the surrounding comment: the row-level effect of the merge
statement. -/
def mergeRow (t : Table) (r : Product) : Table × Int × Int :=
  match findRow t (key r) with
  | none => (t ++ [r], 1, 0)
  | some old =>
    if old.Name == r.Name && old.Price == r.Price && old.Quantity == r.Quantity then
      (t, 0, 0)
    else
      (t.map (applyUpdate r), 0, 1)

/-- The whole staged batch through the single merge statement, row by row in
staging order; tallies are the `SUM` aggregates over the `RETURNING xmax`
rows. -/
def mergeAll : Table → List Product → Table × Int × Int
  | t, [] => (t, 0, 0)
  | t, r :: rest =>
    let step := mergeRow t r
    let next := mergeAll step.1 rest
    (next.1, step.2.1 + next.2.1, step.2.2 + next.2.2)

/-- `ctx.Err()` as observed at a checkpoint: `nil`, `context.DeadlineExceeded`
or `context.Canceled`. -/
inductive CtxErr where
  | deadlineExceeded
  | canceled
deriving DecidableEq, Repr

/-- Errors the storage layer can return, tagged by the step that produced
them. -/
inductive DbError where
  | beginFailed
  | execFailed
  | copyFailed
  | commitFailed
  | ctxDeadlineExceeded
  | ctxCanceled
deriving DecidableEq, Repr

/-- The error value the pre-commit `ctx.Err()` switch surfaces. -/
def ctxDbError : CtxErr → DbError
  | .deadlineExceeded => .ctxDeadlineExceeded
  | .canceled => .ctxCanceled

/-- Failures injected by the environment (connection loss and similar
external faults) at each fallible statement of a transaction. -/
structure DbEnv where
  beginFails : Bool
  createTempFails : Bool
  copyFails : Bool
  execFails : Bool
  commitFails : Bool
deriving DecidableEq, Repr

/-- The fault-free environment. -/
def noFaults : DbEnv :=
  { beginFails := false, createTempFails := false, copyFails := false
    execFails := false, commitFails := false }

end postgresql

namespace postgresql

/-- The body of `Upsert` (`scheduler.go` appended storage code, lines
225-313) up to and including the pre-commit `ctx.Err()` switch and the
commit: begin, `CREATE TEMPORARY TABLE products_temporary (LIKE products
INCLUDING CONSTRAINTS INCLUDING INDEXES) ON COMMIT DROP`, `CopyFrom` of the
batch, the conflict-merge statement, the context check, `Commit`.  `ctx` is
`ctx.Err()` as observed at the pre-commit checkpoint.  An `.ok` value is the
table content this transaction hands to its committer together with the
`(inserted, updated)` tallies. -/
def upsertTx (env : DbEnv) (ctx : Option CtxErr) (t : Table) (products : List Product) :
    Except DbError (Table × Int × Int) :=
  if env.beginFails then .error .beginFailed
  else if env.createTempFails then .error .execFailed
  else if env.copyFails || !stageOk products then .error .copyFailed
  else if env.execFails then .error .execFailed
  else
    let merged := mergeAll t products
    match ctx with
    | some .deadlineExceeded => .error .ctxDeadlineExceeded
    | some .canceled => .error .ctxCanceled
    | none =>
      if env.commitFails then .error .commitFailed
      else .ok merged

/-- The Go return shape of `Upsert`: the persisted table after the call plus
`(inserted, updated, err)`.  Every error path has returned before `Commit`,
so the deferred `tx.Rollback` discards the staging effects and the persisted
table is the caller's input. -/
structure UpsertReturn where
  persisted : Table
  inserted : Int
  updated : Int
  err : Option DbError
deriving DecidableEq, Repr

/-- Stand-alone `Upsert`: `upsertTx` whose commit persists the merged
table; on error the persisted table is unchanged and the counts are the
zero values of the Go return statement. -/
def Upsert (env : DbEnv) (ctx : Option CtxErr) (t : Table) (products : List Product) :
    UpsertReturn :=
  match upsertTx env ctx t products with
  | .error e => { persisted := t, inserted := 0, updated := 0, err := some e }
  | .ok (t', ins, upd) => { persisted := t', inserted := ins, updated := upd, err := none }

/-- The literal id list the small-batch branch of `Delete` builds
(`delete.go`, lines 57-67): a loop writes `offerIDs[0..len-2]`, then the
final `strconv.FormatInt(offerIDs[i], 10)` indexes `offerIDs[len-1]`
unconditionally — on an empty slice this is `offerIDs[0]`, an
index-out-of-range panic, modelled as `none`. -/
def buildDeleteValues (offerIDs : List Int) : Option (List Int) :=
  match offerIDs.get? (offerIDs.length - 1) with
  | none => none
  | some last => some (offerIDs.take (offerIDs.length - 1) ++ [last])

/-- Outcome of one delete branch: a panic, a statement error, or the staged
table plus the `RowsAffected` count of the `DELETE`. -/
inductive BranchResult where
  | panicked
  | failed (e : DbError)
  | ok (t' : Table) (deleted : Int)
deriving DecidableEq, Repr

/-- The `'values based'` branch of `Delete` (`delete.go`, lines 50-75):
`DELETE FROM products WHERE merchant_id = $1 AND offer_id IN (VALUES ...)`
over the literal list built by `buildDeleteValues`. -/
def valuesBranch (env : DbEnv) (t : Table) (merchantID : Int) (offerIDs : List Int) :
    BranchResult :=
  match buildDeleteValues offerIDs with
  | none => .panicked
  | some lits =>
    if env.execFails then .failed .execFailed
    else
      .ok (t.filter (fun r => !(r.MerchantID == merchantID && lits.contains r.OfferID)))
        (t.countP (fun r => r.MerchantID == merchantID && lits.contains r.OfferID))

/-- The rows `CopyFrom` loads through `bulkOfferIDs` (`bulk` file): the
offer ids in order. -/
def stagedOfferIDs (offerIDs : List Int) : List Int := offerIDs

/-- The `'temporary table based'` branch of `Delete` (`delete.go`, lines
76-116): `CREATE TEMPORARY TABLE offer_ids_temporary (offer_id offer_id)`,
bulk copy of the ids, then `DELETE FROM products USING offer_ids_temporary
WHERE merchant_id = $1 AND products.offer_id = offer_ids_temporary.offer_id`.
The `offer_id` column domain carries `CHECK (VALUE > 0)`, so the copy fails
if any staged id is non-positive. -/
def tempBranch (env : DbEnv) (t : Table) (merchantID : Int) (offerIDs : List Int) :
    BranchResult :=
  if env.createTempFails then .failed .execFailed
  else if env.copyFails || !((stagedOfferIDs offerIDs).all (fun i => 0 < i)) then
    .failed .copyFailed
  else if env.execFails then .failed .execFailed
  else
    let remaining := t.filter (fun r =>
      !(r.MerchantID == merchantID && (stagedOfferIDs offerIDs).any (fun i => i == r.OfferID)))
    .ok remaining ((t.length : Int) - (remaining.length : Int))

/-- The Go return shape of `Delete`, or the panic of the empty-slice
indexing. -/
inductive DeleteReturn where
  | panicked
  | returned (persisted : Table) (deleted : Int) (err : Option DbError)
deriving DecidableEq, Repr

/-- `isLarge := len(offerIDs) > 500` (`delete.go`, line 27). -/
def deleteIsLarge (offerIDs : List Int) : Bool :=
  500 < offerIDs.length

/-- The part of `Delete` shared by both branches (`delete.go`, lines
118-143): propagate the branch outcome through the pre-commit `ctx.Err()`
switch and the commit, rolling back — returning the caller's table `t` with
a zero count — on every error path. -/
def deleteFinish (env : DbEnv) (ctx : Option CtxErr) (t : Table) (br : BranchResult) :
    DeleteReturn :=
  match br with
  | .panicked => .panicked
  | .failed e => .returned t 0 (some e)
  | .ok t' deleted =>
    match ctx with
    | some .deadlineExceeded => .returned t 0 (some .ctxDeadlineExceeded)
    | some .canceled => .returned t 0 (some .ctxCanceled)
    | none =>
      if env.commitFails then .returned t 0 (some .commitFailed)
      else .returned t' deleted none

/-- `Delete` (`delete.go`): begin, branch on `deleteIsLarge`, pre-commit
`ctx.Err()` switch, commit.  On every error path the function has returned
before `Commit`, so the deferred rollback leaves the persisted table equal
to the input. -/
def Delete (env : DbEnv) (ctx : Option CtxErr) (t : Table) (merchantID : Int)
    (offerIDs : List Int) : DeleteReturn :=
  if env.beginFails then .returned t 0 (some .beginFailed)
  else
    deleteFinish env ctx t
      (if deleteIsLarge offerIDs then tempBranch env t merchantID offerIDs
       else valuesBranch env t merchantID offerIDs)

/-- The Go return shape of `UpsertAndDelete`, or a propagated panic. -/
inductive TripleReturn where
  | panicked
  | returned (persisted : Table) (inserted updated deleted : Int) (err : Option DbError)
deriving DecidableEq, Repr

/-- `UpsertAndDelete` (storage code in `part_002`): one parent transaction;
`Upsert` runs nested when `toUpsert` is non-empty, then `Delete` runs nested
when `toDelete` is non-empty, then the parent checks `ctx.Err()` and
commits.  A nested step's successful "commit" only releases its savepoint,
so persistence is decided by the parent commit alone; any step error returns
`(0, 0, 0, err)` and the deferred parent rollback leaves the table
unchanged. -/
def UpsertAndDelete (env : DbEnv) (ctx : Option CtxErr) (t : Table) (merchantID : Int)
    (toUpsert : List Product) (toDelete : List Int) : TripleReturn :=
  if env.beginFails then .returned t 0 0 0 (some .beginFailed)
  else
    match (if toUpsert.length != 0 then upsertTx env ctx t toUpsert else .ok (t, 0, 0)) with
    | .error e => .returned t 0 0 0 (some e)
    | .ok (t₁, ins, upd) =>
      match (if toDelete.length != 0 then Delete env ctx t₁ merchantID toDelete
             else .returned t₁ 0 none) with
      | .panicked => .panicked
      | .returned _ _ (some e) => .returned t 0 0 0 (some e)
      | .returned t₂ del none =>
        match ctx with
        | some .deadlineExceeded => .returned t 0 0 0 (some .ctxDeadlineExceeded)
        | some .canceled => .returned t 0 0 0 (some .ctxCanceled)
        | none =>
          if env.commitFails then .returned t 0 0 0 (some .commitFailed)
          else .returned t₂ ins upd del none

end postgresql

namespace postgresql

/-- `listParameters` from `list.go`: the three optional filters with their
sentinel defaults `0`, `0`, `""`. -/
structure listParameters where
  merchantID : Int
  offerID : Int
  nameQuery : String
deriving DecidableEq, Repr

/-- `ListOption` from `list.go`: a mutation of `listParameters`. -/
def ListOption := listParameters → listParameters

/-- `WithMerchantID` from `list.go`. -/
def WithMerchantID (id : Int) : ListOption :=
  fun p => { p with merchantID := id }

/-- `WithOfferID` from `list.go`. -/
def WithOfferID (id : Int) : ListOption :=
  fun p => { p with offerID := id }

/-- `WithNameQuery` from `list.go`. -/
def WithNameQuery (q : String) : ListOption :=
  fun p => { p with nameQuery := q }

/-- `isAnyNonDefault` from `list.go`, line 29, exactly as written there:
`lp.merchantID == defaultMerchantID || lp.offerID == defaultOfferID ||
lp.nameQuery == defaultNameQuery` — despite its name and its source comment,
it tests whether ANY field still equals its default. -/
def isAnyNonDefault (lp : listParameters) : Bool :=
  lp.merchantID == 0 || lp.offerID == 0 || lp.nameQuery == ""

/-- The row predicate of the WHERE clause `List` builds: each filter clause
is appended only when its field is non-default, `name ^@ $1` being the
starts-with match. -/
def listRowMatch (lp : listParameters) (r : Product) : Bool :=
  (lp.merchantID == 0 || r.MerchantID == lp.merchantID)
    && (lp.offerID == 0 || r.OfferID == lp.offerID)
    && (lp.nameQuery == "" || lp.nameQuery.toList.isPrefixOf r.Name.toList)

/-- The list of options handed to `List`. -/
abbrev OptionsArg := List ListOption

/-- The row list a successful `List` query returns. -/
abbrev ProductRows := List Product

/-- `List` from `list.go`: folds the options over the defaults, then builds
and runs the query — but only inside `if parameters.isAnyNonDefault()`.
When that guard is false no query is ever executed; `rows` keeps its nil
zero value and the subsequent `rows.Next()` call dereferences a nil
interface, so the call never produces a row list (modelled as `none`). -/
def List (options : OptionsArg) (t : Table) : Option ProductRows :=
  let parameters := options.foldl (fun p opt => opt p)
    { merchantID := 0, offerID := 0, nameQuery := "" }
  if isAnyNonDefault parameters then
    some (t.filter (listRowMatch parameters))
  else
    none

end postgresql

namespace task

/-- The resolution of the four-way `select` in `schedule` (`scheduler.go`,
lines 164-193): deadline, cancel signal, abort signal, or a received
result. -/
inductive scheduleOutcome where
  | timedOut
  | canceled
  | aborted
  | done (r : taskResult)

/-- The terminal state `schedule` records for each outcome. -/
def terminalStateOf : scheduleOutcome → taskState
  | .timedOut => .TimedOut
  | .canceled => .Canceled
  | .aborted => .Aborted
  | .done _ => .Done

/-- The registry writes the taken `select` branch performs, in program
order.  The first three branches call `updateTaskState` once; the `Done`
branch first writes state and result inline under the lock (lines 186-191)
and then calls `updateTaskState id Done` once more (line 192), so it writes
the same terminal state twice.  `schedule` is the only function that ever
mutates a stored task after `NewTask`, so these writes, prefixed by the
`NewTask` insertion, are the complete write history of a task id. -/
def scheduleWrites : scheduleOutcome → List (taskRecord → taskRecord)
  | .timedOut => [fun t => { t with state := .TimedOut }]
  | .canceled => [fun t => { t with state := .Canceled }]
  | .aborted => [fun t => { t with state := .Aborted }]
  | .done r => [fun t => { t with state := .Done, result := r },
                fun t => { t with state := .Done }]

/-- The successive registry snapshots of one task: the `NewTask` value
followed by the result of each `schedule` write.  A status reader holding
the shared lock observes exactly one element of this list, and successive
reads observe elements at non-decreasing positions. -/
def snapshotsFrom (t : taskRecord) : List (taskRecord → taskRecord) → List taskRecord
  | [] => [t]
  | w :: ws => t :: snapshotsFrom (w t) ws

/-- The registry snapshots of one task, starting from the `NewTask` value. -/
def snapshots (o : scheduleOutcome) : List taskRecord :=
  snapshotsFrom initialTask (scheduleWrites o)

/-- The task states a reader can observe over the task's lifetime, in
order. -/
def stateTrace (o : scheduleOutcome) : List taskState :=
  (snapshots o).map (·.state)

/-- The ordering of the one-shot state machine: a state may be followed only
by itself, and `Processing` also by any terminal state. -/
def stateLE (a b : taskState) : Bool :=
  a == b || (a == .Processing && isTerminal b)

end task

namespace task

/-- The characters of the base32-hex alphabet used by `xid` string ids. -/
def xidAlphabet : List Char := "0123456789abcdefghijklmnopqrstuv".toList

/-- Modelled from the external `github.com/rs/xid` library used by
`scheduler.go`: `xid.FromString` accepts exactly the 20-character base32-hex
encodings and fails on anything else.  A parsed id is identified with its
canonical string. -/
def xidFromString (s : String) : Option String :=
  if s.length == 20 && s.toList.all (fun c => xidAlphabet.contains c) then some s
  else none

/-- The lifecycle of a per-task signalling channel as the cancellation path
can encounter it: still open, or already closed by a previous successful
cancellation.  Absence from the coordinator map (after `schedule` deletes
the entry) yields Go's nil channel. -/
inductive chanState where
  | opened
  | closed
deriving DecidableEq, Repr

/-- The `cancelChannels` struct of `scheduler.go`: the two maps guarded by
one mutex, keyed by the task id string. -/
structure cancelChannelsState where
  cancelChannels : List (String × chanState)
  stopChannels : List (String × chanState)
deriving DecidableEq, Repr

/-- Map lookup: `none` is a missing key, whose Go map read yields a nil
channel. -/
def lookupChan (m : List (String × chanState)) (id : String) : Option chanState :=
  (m.find? (fun p => p.1 == id)).map (·.2)

/-- Overwrite the entry of `id`. -/
def setChan (m : List (String × chanState)) (id : String) (c : chanState) :
    List (String × chanState) :=
  m.map (fun p => if p.1 == id then (p.1, c) else p)

/-- Remove the entry of `id` (the `delete(map, id)` cleanup in
`schedule`). -/
def removeChan (m : List (String × chanState)) (id : String) :
    List (String × chanState) :=
  m.filter (fun p => !(p.1 == id))

/-- The scheduler state the claims observe: the task registry map and the
coordinator's channel maps. -/
structure schedulerState where
  tasks : List (String × taskRecord)
  chans : cancelChannelsState
deriving DecidableEq, Repr

/-- What a `CancelTask` call can come to. -/
inductive cancelOutcome where
  | badTaskID
  | cannotCancel
  | ok
  | panicked
  | blockedForever
deriving DecidableEq, Repr

/-- The channel phase of `CancelTask` (`scheduler.go`, lines 129-139), run
under the coordinator mutex, after the registry state check has already
passed: `s.cancelChannels.cancelChannels[id] <- struct{}{}` followed by
`close(...)`.  On an open channel the send synchronizes with the `select` of
`schedule` and the close succeeds.  On a channel another cancellation has
already closed, the send panics.  On a missing map entry (after `schedule`'s
cleanup) the send is on a nil channel and blocks forever — with the
coordinator mutex held. -/
def cancelChannelPhase (c : cancelChannelsState) (id : String) :
    cancelChannelsState × cancelOutcome :=
  match lookupChan c.cancelChannels id with
  | none => (c, .blockedForever)
  | some .closed => (c, .panicked)
  | some .opened =>
    ({ c with cancelChannels := setChan c.cancelChannels id .closed }, .ok)

/-- `CancelTask` (`scheduler.go`, lines 111-142) run without interference:
parse the id (`ErrBadTaskID` on failure), read the task under the shared
registry lock (`ErrBadTaskID` when absent), refuse with `ErrCanNotCancel`
unless the state is `Processing`, then perform the channel phase.  Note the
registry is read, never written, on every path. -/
def CancelTask (st : schedulerState) (stringID : String) :
    schedulerState × cancelOutcome :=
  match xidFromString stringID with
  | none => (st, .badTaskID)
  | some id =>
    match (st.tasks.find? (fun p => p.1 == id)).map (·.2) with
    | none => (st, .badTaskID)
    | some t =>
      if t.state != .Processing then (st, .cannotCancel)
      else
        let step := cancelChannelPhase st.chans id
        ({ st with chans := step.1 }, step.2)

/-- The registry/coordinator effects of the `case <-cancelCh` branch of
`schedule` (`scheduler.go`, lines 171-176 and 195-198): close the stop
channel, record `Canceled`, then delete both per-task channel map
entries. -/
def scheduleCancelBranch (st : schedulerState) (id : String) : schedulerState :=
  { tasks := st.tasks.map (fun p =>
      if p.1 == id then (p.1, { p.2 with state := .Canceled }) else p)
    chans := { cancelChannels := removeChan st.chans.cancelChannels id
               stopChannels := removeChan (setChan st.chans.stopChannels id .closed) id } }

/-- A one-task scheduler state: the task is `Processing` and its two
coordinator channels are registered and open. -/
def oneProcessingTask : schedulerState :=
  { tasks := [("9m4e2mr0ui3e8a215n4g", initialTask)]
    chans := { cancelChannels := [("9m4e2mr0ui3e8a215n4g", .opened)]
               stopChannels := [("9m4e2mr0ui3e8a215n4g", .opened)] } }

end task

namespace task

/-- A channel operation `processTask` performs, in program order.  The
`resultChannel` send is unbuffered: it completes only once the `select` of
`schedule` has received it, so the first operation of this list is the one
— and, the `select` running once, the only one — the coordinator can
resolve to. -/
inductive channelOp where
  | closeAbort
  | sendResult (r : taskResult)
  | closeResultChan
deriving DecidableEq, Repr

/-- Which database call `processTask` makes (`part_000`, lines 273-281):
`UpsertAndDelete` when both row sets are non-empty, one of the single calls
when exactly one is, and no call at all when the sheet produced neither. -/
def workerExec (env : postgresql.DbEnv) (ctx : Option postgresql.CtxErr)
    (t : postgresql.Table) (merchantID : Int) (toUpsert : List postgresql.Product)
    (toDelete : List Int) : postgresql.TripleReturn :=
  if toUpsert.length != 0 && toDelete.length != 0 then
    postgresql.UpsertAndDelete env ctx t merchantID toUpsert toDelete
  else if toUpsert.length != 0 then
    match postgresql.Upsert env ctx t toUpsert with
    | ⟨t', ins, upd, err⟩ => .returned t' ins upd 0 err
  else if toDelete.length != 0 then
    match postgresql.Delete env ctx t merchantID toDelete with
    | .panicked => .panicked
    | .returned t' del err => .returned t' 0 0 del err
  else .returned t 0 0 0 none

/-- The worker `processTask` (`part_000`, lines 198-308).  File opening and
sheet parsing live in external libraries, so the parse outcome is an input:
`openOk` is whether `xlsx.OpenFile` succeeded, and `toUpsert` / `toDelete` /
`total` are the row sets and `sh.MaxRow - 1` count the validation loop
produced (rows failing cell validation only bump the loop's ignored counter
and end up in neither set).  On open failure or any database error the
worker closes `abortChannel` and returns; on success it builds the result
with `ignored = total - (inserted + updated + deleted)`, re-checks
`ctx.Err()`, and only when the context is still alive sends the result and
then closes both channels; a dead context makes it return silently.
Returns the channel operations in program order, the persisted table, and
whether the call panicked (possible only through `Delete` on an empty key
list). -/
def processTask (env : postgresql.DbEnv) (ctx : Option postgresql.CtxErr)
    (ctxDoneAtSend : Bool) (t : postgresql.Table) (openOk : Bool) (merchantID : Int)
    (toUpsert : List postgresql.Product) (toDelete : List Int) (total : Int) :
    List channelOp × postgresql.Table × Bool :=
  if !openOk then ([.closeAbort], t, false)
  else
    match workerExec env ctx t merchantID toUpsert toDelete with
    | .panicked => ([], t, true)
    | .returned t' _ _ _ (some _) => ([.closeAbort], t', false)
    | .returned t' ins upd del none =>
      let r : taskResult :=
        { data := { added := ins, updated := upd, removed := del
                    ignored := total - (ins + upd + del) }
          error := none }
      if ctxDoneAtSend then ([], t', false)
      else ([.sendResult r, .closeResultChan, .closeAbort], t', false)

end task

namespace task

/-- C1: for every task, the registry state transitions at most once, from
`Processing` to exactly one of the terminal states; once a terminal state is
recorded no later registry write changes it, and every pair of states read
at non-decreasing points of the write history is ordered along
`Processing → terminal`.  The write history of a task id is
`stateTrace o`: the `NewTask` insertion followed by the writes of the single
`select` branch `schedule` takes (`schedule` is the only writer after
creation, and it runs once per task). -/
theorem c1_state_transitions_once (o : scheduleOutcome) :
    (stateTrace o).head? = some .Processing ∧
    (∀ i j : Fin (stateTrace o).length, i ≤ j →
      stateLE ((stateTrace o).get i) ((stateTrace o).get j) = true ∧
      (isTerminal ((stateTrace o).get i) = true →
        (stateTrace o).get j = (stateTrace o).get i)) ∧
    ((stateTrace o).tail.all fun s => s == terminalStateOf o && isTerminal s) = true := by
  cases o with
  | timedOut => decide
  | canceled => decide
  | aborted => decide
  | done r =>
    exact (by decide :
      ([.Processing, .Done, .Done] : List taskState).head? = some .Processing ∧
      (∀ i j : Fin ([.Processing, .Done, .Done] : List taskState).length, i ≤ j →
        stateLE (([.Processing, .Done, .Done] : List taskState).get i)
          (([.Processing, .Done, .Done] : List taskState).get j) = true ∧
        (isTerminal (([.Processing, .Done, .Done] : List taskState).get i) = true →
          ([.Processing, .Done, .Done] : List taskState).get j =
            ([.Processing, .Done, .Done] : List taskState).get i)) ∧
      (([.Processing, .Done, .Done] : List taskState).tail.all fun s =>
        s == .Done && isTerminal s) = true)

/-- Witness for C1 at the timeout outcome: position 0 (`Processing`) is
below position 1 (`TimedOut`) in the trace order. -/
theorem c1_state_transitions_once_witness :
    stateLE ((stateTrace .timedOut).get ⟨0, by decide⟩)
      ((stateTrace .timedOut).get ⟨1, by decide⟩) = true :=
  ((c1_state_transitions_once .timedOut).2.1 ⟨0, by decide⟩ ⟨1, by decide⟩
    (by decide)).1

end task

namespace task

/-- C8: a cancellation request for a task whose recorded state is not
`Processing` returns `ErrCanNotCancel`, and one for a malformed or unknown
id returns `ErrBadTaskID`; in all three cases the scheduler state — task
registry and coordinator maps — is returned exactly as it was. -/
theorem c8_cancel_errors_no_mutation (st : schedulerState) (sid : String) :
    (xidFromString sid = none → CancelTask st sid = (st, .badTaskID)) ∧
    (∀ id, xidFromString sid = some id →
      (((st.tasks.find? (fun p => p.1 == id)).map (·.2) = none →
        CancelTask st sid = (st, .badTaskID)) ∧
      (∀ t, (st.tasks.find? (fun p => p.1 == id)).map (·.2) = some t →
        t.state ≠ .Processing → CancelTask st sid = (st, .cannotCancel)))) := by
  refine ⟨fun h => by simp [CancelTask, h], fun id hid => ⟨fun hnone => ?_, fun t ht hst => ?_⟩⟩
  · simp [CancelTask, hid, hnone]
  · have hb : (t.state != taskState.Processing) = true := bne_iff_ne.mpr hst
    simp [CancelTask, hid, ht, hb]


/-- Witness for C8: cancelling a task that has already reached `Done` fails
with `ErrCanNotCancel` and leaves the state untouched. -/
theorem c8_cancel_errors_no_mutation_witness :
    CancelTask
      { tasks := [("9m4e2mr0ui3e8a215n4g", { initialTask with state := .Done })]
        chans := { cancelChannels := [], stopChannels := [] } }
      "9m4e2mr0ui3e8a215n4g" =
    ({ tasks := [("9m4e2mr0ui3e8a215n4g", { initialTask with state := .Done })]
       chans := { cancelChannels := [], stopChannels := [] } }, .cannotCancel) :=
  ((c8_cancel_errors_no_mutation _ _).2 "9m4e2mr0ui3e8a215n4g" (by decide)).2
    { initialTask with state := .Done } (by decide) (by decide)

end task

namespace task

/-- C9 is violated by the code: the state check and the channel send of
`CancelTask` are not atomic (the registry lock is released before the
coordinator lock is taken — the hazard the commented-out `select` and the
`TODO` above `scheduler.go` line 137 acknowledge).  Starting from a
`Processing` task with open channels, two requests both pass the state
check; the first sends and closes the cancel channel.  If the second then
runs its channel phase before `schedule` removes the map entry, it sends on
a closed channel and panics; if it runs after the removal, it sends on a nil
channel and blocks forever while holding the coordinator mutex.  Either way
the claimed "second request fails gracefully with `CannotCancel`" does not
hold. -/
theorem c9_double_cancel_code_bug :
    ((oneProcessingTask.tasks.find? (fun p => p.1 == "9m4e2mr0ui3e8a215n4g")).map
        (·.2) = some initialTask ∧ initialTask.state = .Processing) ∧
    (CancelTask oneProcessingTask "9m4e2mr0ui3e8a215n4g").2 = .ok ∧
    (cancelChannelPhase (CancelTask oneProcessingTask "9m4e2mr0ui3e8a215n4g").1.chans
      "9m4e2mr0ui3e8a215n4g").2 = .panicked ∧
    (cancelChannelPhase
      (scheduleCancelBranch (CancelTask oneProcessingTask "9m4e2mr0ui3e8a215n4g").1
        "9m4e2mr0ui3e8a215n4g").chans
      "9m4e2mr0ui3e8a215n4g").2 = .blockedForever := by
  decide

end task

/-- On a non-empty key list the Go loop writes exactly the input ids as the
literal `VALUES` list. -/
theorem buildDeleteValues_of_ne_nil (ids : List Int) (h : ids ≠ []) :
    postgresql.buildDeleteValues ids = some ids := by
  have hlen : 0 < ids.length := List.length_pos.mpr h
  have hlt : ids.length - 1 < ids.length := by omega
  unfold postgresql.buildDeleteValues
  rw [List.get?_eq_get hlt]
  simp only [List.get_eq_getElem]
  rw [List.take_concat_get' ids (ids.length - 1) hlt]
  have h1 : ids.length - 1 + 1 = ids.length := by omega
  rw [h1, List.take_length]

/-- The temporary-table branch can fail but can never panic. -/
theorem tempBranch_ne_panicked (env : postgresql.DbEnv) (t : postgresql.Table) (m : Int)
    (ids : List Int) : postgresql.tempBranch env t m ids ≠ .panicked := by
  unfold postgresql.tempBranch
  split
  · exact fun h => by cases h
  · split
    · exact fun h => by cases h
    · split
      · exact fun h => by cases h
      · exact fun h => by cases h

/-- On a non-empty key list the values branch cannot panic either. -/
theorem valuesBranch_ne_panicked (env : postgresql.DbEnv) (t : postgresql.Table) (m : Int)
    (ids : List Int) (h : ids ≠ []) : postgresql.valuesBranch env t m ids ≠ .panicked := by
  unfold postgresql.valuesBranch
  rw [buildDeleteValues_of_ne_nil ids h]
  cases hf : env.execFails <;> simp [hf]

/-- `deleteFinish` panics exactly when the branch it is fed panicked. -/
theorem deleteFinish_ne_panicked (env : postgresql.DbEnv) (ctx : Option postgresql.CtxErr)
    (t : postgresql.Table) (br : postgresql.BranchResult) (h : br ≠ .panicked) :
    postgresql.deleteFinish env ctx t br ≠ .panicked := by
  rcases br with _ | e | ⟨t', d⟩
  · exact absurd rfl h
  · simp [postgresql.deleteFinish]
  · unfold postgresql.deleteFinish
    rcases ctx with _ | c
    · cases hcf : env.commitFails <;> simp [hcf]
    · cases c <;> simp

/-- `Delete` on a non-empty key list never panics. -/
theorem Delete_ne_panicked (env : postgresql.DbEnv) (ctx : Option postgresql.CtxErr)
    (t : postgresql.Table) (m : Int) (ids : List Int) (h : ids ≠ []) :
    postgresql.Delete env ctx t m ids ≠ .panicked := by
  unfold postgresql.Delete
  split
  · exact fun hc => by cases hc
  · apply deleteFinish_ne_panicked
    by_cases hl : postgresql.deleteIsLarge ids
    · simpa [hl] using tempBranch_ne_panicked env t m ids
    · simpa [hl] using valuesBranch_ne_panicked env t m ids h

/-- `UpsertAndDelete` never panics: its nested `Delete` runs only behind the
`len(toDelete) != 0` guard. -/
theorem UpsertAndDelete_ne_panicked (env : postgresql.DbEnv) (ctx : Option postgresql.CtxErr)
    (t : postgresql.Table) (m : Int) (toU : List postgresql.Product) (toD : List Int) :
    postgresql.UpsertAndDelete env ctx t m toU toD ≠ .panicked := by
  unfold postgresql.UpsertAndDelete
  split
  · simp
  split
  · simp
  split
  · next hd =>
      exfalso
      by_cases h3 : (toD.length != 0) = true
      · rw [if_pos h3] at hd
        have hne : toD ≠ [] := by cases toD <;> simp_all
        exact Delete_ne_panicked env ctx _ m toD hne hd
      · rw [if_neg h3] at hd
        cases hd
  · simp
  · rcases ctx with _ | c
    · cases hcf : env.commitFails <;> simp [hcf]
    · cases c <;> simp

/-- The worker's database dispatch never panics: every `Delete` invocation,
direct or through `UpsertAndDelete`, is guarded by a non-emptiness check on
the key list. -/
theorem workerExec_ne_panicked (env : postgresql.DbEnv) (ctx : Option postgresql.CtxErr)
    (t : postgresql.Table) (m : Int) (toU : List postgresql.Product) (toD : List Int) :
    task.workerExec env ctx t m toU toD ≠ .panicked := by
  unfold task.workerExec
  split
  · exact UpsertAndDelete_ne_panicked env ctx t m toU toD
  split
  · rcases postgresql.Upsert env ctx t toU with ⟨t', i, u, err⟩
    simp
  split
  next h1 h2 h3 =>
    have hne : toD ≠ [] := by cases toD <;> simp_all
    rcases hd : postgresql.Delete env ctx t m toD with _ | ⟨t', del, err⟩
    · exact absurd hd (Delete_ne_panicked env ctx t m toD hne)
    · simp [hd]
  · simp

/-- C10: `Delete` has an unstated non-emptiness precondition.  On an empty
`offerIDs` slice the small-batch branch runs (0 is not `> 500`), its
value-list builder skips the loop and unconditionally indexes
`offerIDs[0]`, and the call panics instead of returning an error or a zero
count — provided the transaction `Begin` itself did not fail first.  The
in-repo worker avoids the panic because every `Delete` invocation, direct
or inside `UpsertAndDelete`, sits behind a `len(toDelete) != 0` guard, so
`processTask` never panics. -/
theorem c10_delete_empty_precondition :
    (∀ (env : postgresql.DbEnv) (ctx : Option postgresql.CtxErr) (t : postgresql.Table)
      (m : Int), env.beginFails = false →
      postgresql.Delete env ctx t m [] = .panicked) ∧
    (∀ (env : postgresql.DbEnv) (ctx : Option postgresql.CtxErr) (cds : Bool)
      (t : postgresql.Table) (ok : Bool) (m : Int) (toU : List postgresql.Product)
      (toD : List Int) (total : Int),
      (task.processTask env ctx cds t ok m toU toD total).2.2 = false) := by
  constructor
  · intro env ctx t m hb
    simp [postgresql.Delete, hb, postgresql.deleteIsLarge, postgresql.deleteFinish,
      postgresql.valuesBranch, postgresql.buildDeleteValues]
  · intro env ctx cds t ok m toU toD total
    unfold task.processTask
    cases ok with
    | false => simp
    | true =>
      simp only [Bool.not_true, Bool.false_eq_true, if_false]
      rcases hw : task.workerExec env ctx t m toU toD with _ | ⟨t', ins, upd, del, err⟩
      · exact absurd hw (workerExec_ne_panicked env ctx t m toU toD)
      · rcases err with _ | e
        · cases cds <;> simp [hw]
        · simp [hw]

/-- Witness for C10: with a fault-free environment, deleting an empty key
list panics, while the worker given an empty parse result does not panic. -/
theorem c10_delete_empty_precondition_witness :
    postgresql.Delete postgresql.noFaults none [] 7 [] = .panicked ∧
    (task.processTask postgresql.noFaults none false [] true 7 [] [] 0).2.2 = false :=
  ⟨c10_delete_empty_precondition.1 postgresql.noFaults none [] 7 rfl,
   c10_delete_empty_precondition.2 postgresql.noFaults none false [] true 7 [] [] 0⟩

set_option maxRecDepth 8000 in
/-- C5 as frozen is off by one: `isLarge := len(offerIDs) > 500` is strict,
so a key list of exactly 500 keys — "500 or more" in the claim's words —
takes the value-list branch, not the temporary-table branch.  With 500
copies of the key `-1` the divergence is observable: the value-list branch
deletes nothing and succeeds, while staging into the temporary table would
fail its `offer_id > 0` domain constraint. -/
theorem c5_threshold_counterexample :
    (List.replicate 500 (-1 : Int)).length = 500 ∧
    postgresql.deleteIsLarge (List.replicate 500 (-1 : Int)) = false ∧
    postgresql.Delete postgresql.noFaults none [] 7 (List.replicate 500 (-1 : Int)) =
      postgresql.deleteFinish postgresql.noFaults none []
        (postgresql.valuesBranch postgresql.noFaults [] 7 (List.replicate 500 (-1 : Int))) ∧
    postgresql.Delete postgresql.noFaults none [] 7 (List.replicate 500 (-1 : Int)) ≠
      postgresql.deleteFinish postgresql.noFaults none []
        (postgresql.tempBranch postgresql.noFaults [] 7 (List.replicate 500 (-1 : Int))) := by
  refine ⟨by decide, by decide, rfl, by decide⟩

/-- C5 amended: the threshold comparison is strict.  With at most 500 keys
`Delete` issues the single value-list `DELETE`; only with strictly more
than 500 keys does it stage the keys into the temporary table and delete
via the join. -/
theorem c5_threshold_amended (env : postgresql.DbEnv) (ctx : Option postgresql.CtxErr)
    (t : postgresql.Table) (m : Int) (ids : List Int) (hb : env.beginFails = false) :
    (ids.length ≤ 500 →
      postgresql.Delete env ctx t m ids =
        postgresql.deleteFinish env ctx t (postgresql.valuesBranch env t m ids)) ∧
    (500 < ids.length →
      postgresql.Delete env ctx t m ids =
        postgresql.deleteFinish env ctx t (postgresql.tempBranch env t m ids)) := by
  constructor
  · intro hlen
    have hl : postgresql.deleteIsLarge ids = false := by
      simp [postgresql.deleteIsLarge, Nat.not_lt.mpr hlen]
    simp [postgresql.Delete, hb, hl]
  · intro hlen
    have hl : postgresql.deleteIsLarge ids = true := by
      simp [postgresql.deleteIsLarge, hlen]
    simp [postgresql.Delete, hb, hl]

set_option maxRecDepth 8000 in
/-- Witness for C5 amended: one key takes the value-list branch, 501 keys
take the temporary-table branch. -/
theorem c5_threshold_amended_witness :
    postgresql.Delete postgresql.noFaults none [] 7 [3] =
      postgresql.deleteFinish postgresql.noFaults none []
        (postgresql.valuesBranch postgresql.noFaults [] 7 [3]) ∧
    postgresql.Delete postgresql.noFaults none [] 7 (List.replicate 501 (3 : Int)) =
      postgresql.deleteFinish postgresql.noFaults none []
        (postgresql.tempBranch postgresql.noFaults [] 7 (List.replicate 501 (3 : Int))) :=
  ⟨(c5_threshold_amended postgresql.noFaults none [] 7 [3] rfl).1 (by decide),
   (c5_threshold_amended postgresql.noFaults none [] 7 (List.replicate 501 (3 : Int)) rfl).2
     (by simp)⟩

/-- C4 fails on the code: `isAnyNonDefault` (`list.go`, line 29) ORs
`== default` comparisons, so with all three filters supplied it returns
`false`, the `WHERE`-building block — which alone contains the two
`s.db.Query` calls — is skipped, and no query is executed at all (the
subsequent `rows.Next()` then dereferences the nil `rows` interface).  Here
the one-row table matches all three supplied filters, yet `List` produces
no row list. -/
theorem c4_all_filters_skip_query :
    postgresql.isAnyNonDefault { merchantID := 1, offerID := 2, nameQuery := "app" } = false ∧
    postgresql.listRowMatch { merchantID := 1, offerID := 2, nameQuery := "app" }
      { MerchantID := 1, OfferID := 2, Name := "apple", Price := 10, Quantity := 3 } = true ∧
    postgresql.List
      [postgresql.WithMerchantID 1, postgresql.WithOfferID 2, postgresql.WithNameQuery "app"]
      [{ MerchantID := 1, OfferID := 2, Name := "apple", Price := 10, Quantity := 3 }] =
      none := by
  decide

/-- C3: when the governing context is already canceled or past its deadline
at the pre-commit checkpoint, `Upsert` and `Delete` surface that context
error with zero counts instead of committing, and the persisted table is
exactly the caller's input — the staged work is discarded by the deferred
rollback.  The hypotheses say the call reached the checkpoint: every
earlier statement succeeded. -/
theorem c3_precommit_ctx_check (env : postgresql.DbEnv) (t : postgresql.Table)
    (e : postgresql.CtxErr) :
    (∀ batch : List postgresql.Product, env.beginFails = false →
      env.createTempFails = false → env.copyFails = false →
      postgresql.stageOk batch = true → env.execFails = false →
      postgresql.Upsert env (some e) t batch =
        { persisted := t, inserted := 0, updated := 0
          err := some (postgresql.ctxDbError e) }) ∧
    (∀ (m : Int) (ids : List Int) (t' : postgresql.Table) (d : Int),
      env.beginFails = false →
      (if postgresql.deleteIsLarge ids then postgresql.tempBranch env t m ids
       else postgresql.valuesBranch env t m ids) = .ok t' d →
      postgresql.Delete env (some e) t m ids =
        .returned t 0 (some (postgresql.ctxDbError e))) := by
  constructor
  · intro batch hb hct hcp hst hex
    unfold postgresql.Upsert postgresql.upsertTx
    rw [hb, hct, hcp, hst, hex]
    cases e <;> simp [postgresql.ctxDbError]
  · intro m ids t' d hb hbr
    unfold postgresql.Delete
    rw [hb, hbr]
    cases e <;> simp [postgresql.deleteFinish, postgresql.ctxDbError]

/-- Witness for C3: with a fault-free environment and a context already
canceled at the checkpoint, a one-row upsert and a one-key delete both
return `context.Canceled` with zero counts and leave the empty table
unchanged. -/
theorem c3_precommit_ctx_check_witness :
    postgresql.Upsert postgresql.noFaults (some .canceled) []
      [{ MerchantID := 1, OfferID := 1, Name := "a", Price := 1, Quantity := 1 }] =
      { persisted := [], inserted := 0, updated := 0, err := some .ctxCanceled } ∧
    postgresql.Delete postgresql.noFaults (some .canceled) [] 7 [5] =
      .returned [] 0 (some .ctxCanceled) :=
  ⟨(c3_precommit_ctx_check postgresql.noFaults [] .canceled).1
      [{ MerchantID := 1, OfferID := 1, Name := "a", Price := 1, Quantity := 1 }]
      rfl rfl rfl (by decide) rfl,
   (c3_precommit_ctx_check postgresql.noFaults [] .canceled).2 7 [5] [] 0 rfl (by decide)⟩

/-- `List.contains` tests the same membership the temp-table join probes,
the two sides of the `==` merely swapped. -/
theorem contains_eq_any_beq (ids : List Int) (x : Int) :
    ids.contains x = ids.any (fun i => i == x) := by
  induction ids with
  | nil => rfl
  | cons a l ih =>
    simp only [List.contains_cons, List.any_cons, ih]
    by_cases h : x = a
    · simp [h]
    · have h1 : (x == a) = false := by simpa using h
      have h2 : (a == x) = false := by simpa using fun hc => h hc.symm
      rw [h1, h2]

/-- Counting the matches and measuring what filtering them away removes are
the same number. -/
theorem countP_add_filter_not {α : Type} (p : α → Bool) (l : List α) :
    l.countP p + (l.filter (fun x => !p x)).length = l.length := by
  induction l with
  | nil => simp
  | cons a l ih =>
    cases hp : p a <;> simp [List.countP_cons, List.filter_cons, hp] <;> omega

/-- C6 as frozen fails on the code at the empty key set: the value-list
branch panics on `offerIDs[0]` while the temporary-table branch deletes
nothing and reports zero.  It also fails on key sets violating the staging
table's `offer_id > 0` domain: with the single key `-1` the value-list
branch succeeds (deleting nothing), while the bulk copy into the temporary
table fails the domain constraint. -/
theorem c6_branch_equivalence_counterexample :
    postgresql.valuesBranch postgresql.noFaults [] 7 [] = .panicked ∧
    postgresql.tempBranch postgresql.noFaults [] 7 [] = .ok [] 0 ∧
    postgresql.valuesBranch postgresql.noFaults [] 7 [-1] = .ok [] 0 ∧
    postgresql.tempBranch postgresql.noFaults [] 7 [-1] = .failed .copyFailed := by
  decide

/-- C6 amended: on every non-empty key list whose keys all satisfy the
`offer_id` domain constraint (positive), and with no injected fault in the
two statements only the temporary-table branch executes, the two branches
of `Delete` are equal outcomes: they remove exactly the same rows and
report the same deleted count. -/
theorem c6_branch_equivalence_amended (env : postgresql.DbEnv) (t : postgresql.Table)
    (m : Int) (ids : List Int) (hne : ids ≠ [])
    (hpos : ids.all (fun i => 0 < i) = true)
    (hct : env.createTempFails = false) (hcp : env.copyFails = false) :
    postgresql.valuesBranch env t m ids = postgresql.tempBranch env t m ids := by
  unfold postgresql.valuesBranch postgresql.tempBranch postgresql.stagedOfferIDs
  rw [buildDeleteValues_of_ne_nil ids hne, hct, hcp, hpos]
  simp only [Bool.false_eq_true, if_false, Bool.not_true, Bool.false_or]
  cases hex : env.execFails with
  | true => simp
  | false =>
    simp only [Bool.false_eq_true, if_false]
    have hpred : ∀ r : postgresql.Product,
        (r.MerchantID == m && ids.contains r.OfferID) =
        (r.MerchantID == m && ids.any (fun i => i == r.OfferID)) := by
      intro r
      rw [contains_eq_any_beq]
    have hfilter :
        t.filter (fun r => !(r.MerchantID == m && ids.contains r.OfferID)) =
        t.filter (fun r => !(r.MerchantID == m && ids.any (fun i => i == r.OfferID))) := by
      apply List.filter_congr
      intro r _
      rw [hpred r]
    have hcount :
        (t.countP (fun r => r.MerchantID == m && ids.contains r.OfferID) : Int) =
        (t.length : Int) -
          ((t.filter (fun r =>
            !(r.MerchantID == m && ids.any (fun i => i == r.OfferID)))).length : Int) := by
      rw [← hfilter]
      have h := countP_add_filter_not
        (fun r : postgresql.Product => r.MerchantID == m && ids.contains r.OfferID) t
      omega
    rw [hfilter, hcount]

/-- Witness for C6 amended: on a two-row table and the key list `[2, 3]`
both branches delete the matching row and report the same count. -/
theorem c6_branch_equivalence_amended_witness :
    postgresql.valuesBranch postgresql.noFaults
      [{ MerchantID := 1, OfferID := 2, Name := "a", Price := 5, Quantity := 1 },
       { MerchantID := 1, OfferID := 9, Name := "b", Price := 5, Quantity := 1 }] 1 [2, 3] =
    postgresql.tempBranch postgresql.noFaults
      [{ MerchantID := 1, OfferID := 2, Name := "a", Price := 5, Quantity := 1 },
       { MerchantID := 1, OfferID := 9, Name := "b", Price := 5, Quantity := 1 }] 1 [2, 3] :=
  c6_branch_equivalence_amended postgresql.noFaults
    [{ MerchantID := 1, OfferID := 2, Name := "a", Price := 5, Quantity := 1 },
     { MerchantID := 1, OfferID := 9, Name := "b", Price := 5, Quantity := 1 }] 1 [2, 3]
    (by decide) (by decide) rfl rfl

/-- The `DO UPDATE SET` assignment never changes a row's key columns. -/
theorem key_applyUpdate (r x : postgresql.Product) :
    postgresql.key (postgresql.applyUpdate r x) = postgresql.key x := by
  unfold postgresql.applyUpdate
  split <;> rfl

/-- A row found under a key carries that key. -/
theorem findRow_some_key (t : postgresql.Table) (k : Int × Int) (x : postgresql.Product)
    (h : postgresql.findRow t k = some x) : postgresql.key x = k := by
  have hp := List.find?_some h
  simpa using hp

/-- Looking up a key through the update map rewrites the found row. -/
theorem findRow_map_applyUpdate (t : postgresql.Table) (r : postgresql.Product)
    (k : Int × Int) :
    postgresql.findRow (t.map (postgresql.applyUpdate r)) k =
      (postgresql.findRow t k).map (postgresql.applyUpdate r) := by
  unfold postgresql.findRow
  have hpred : ((fun x => postgresql.key x == k) ∘ postgresql.applyUpdate r) =
      (fun x => postgresql.key x == k) := by
    funext x
    simp [Function.comp, key_applyUpdate]
  rw [List.find?_map, hpred]

/-- Two product rows with the same key and the same three attributes are the
same row. -/
theorem product_eq_of_parts (old r : postgresql.Product)
    (hk : postgresql.key old = postgresql.key r) (hn : old.Name = r.Name)
    (hp : old.Price = r.Price) (hq : old.Quantity = r.Quantity) : old = r := by
  cases old
  cases r
  simp only [postgresql.key, Prod.mk.injEq] at hk
  simp_all

/-- Applying the merge assignment to a row that carries the staged row's key
yields the staged row itself. -/
theorem applyUpdate_of_key (r old : postgresql.Product)
    (hk : postgresql.key old = postgresql.key r) :
    postgresql.applyUpdate r old = r := by
  unfold postgresql.applyUpdate
  rw [if_pos (by simp [hk])]
  cases old
  cases r
  simp only [postgresql.key, Prod.mk.injEq] at hk
  simp_all

/-- After merging one staged row, looking its key up finds exactly the
staged row, in all three arms: fresh insert, conflict-skip, and update. -/
theorem findRow_mergeRow_self (t : postgresql.Table) (r : postgresql.Product) :
    postgresql.findRow (postgresql.mergeRow t r).1 (postgresql.key r) = some r := by
  unfold postgresql.mergeRow
  split
  next h =>
    show postgresql.findRow (t ++ [r]) (postgresql.key r) = some r
    unfold postgresql.findRow at h ⊢
    rw [List.find?_append, h]
    simp
  next old h =>
    have hk := findRow_some_key t _ old h
    split
    next hattr =>
      show postgresql.findRow t (postgresql.key r) = some r
      rw [h]
      have heq : old = r := by
        simp only [Bool.and_eq_true, beq_iff_eq] at hattr
        exact product_eq_of_parts old r hk hattr.1.1 hattr.1.2 hattr.2
      rw [heq]
    next hattr =>
      show postgresql.findRow (t.map (postgresql.applyUpdate r)) (postgresql.key r) = some r
      rw [findRow_map_applyUpdate, h]
      show some (postgresql.applyUpdate r old) = some r
      rw [applyUpdate_of_key r old hk]

/-- Merging one staged row leaves every other key's lookup unchanged. -/
theorem findRow_mergeRow_other (t : postgresql.Table) (r : postgresql.Product)
    (k : Int × Int) (hne : k ≠ postgresql.key r) :
    postgresql.findRow (postgresql.mergeRow t r).1 k = postgresql.findRow t k := by
  unfold postgresql.mergeRow
  split
  next h =>
    show postgresql.findRow (t ++ [r]) k = postgresql.findRow t k
    unfold postgresql.findRow
    rw [List.find?_append]
    cases hf : List.find? (fun x => postgresql.key x == k) t with
    | none =>
      have hrk : (postgresql.key r == k) = false := by
        simpa using fun hc => hne hc.symm
      simp [hrk]
    | some x => simp
  next old h =>
    split
    next =>
      show postgresql.findRow t k = postgresql.findRow t k
      rfl
    next =>
      show postgresql.findRow (t.map (postgresql.applyUpdate r)) k = postgresql.findRow t k
      rw [findRow_map_applyUpdate]
      cases hf : postgresql.findRow t k with
      | none => rfl
      | some x =>
        have hk := findRow_some_key t k x hf
        show some (postgresql.applyUpdate r x) = some x
        unfold postgresql.applyUpdate
        rw [if_neg]
        simp only [beq_iff_eq, hk]
        exact hne

/-- Merging a whole batch leaves lookups of keys outside the batch
unchanged. -/
theorem findRow_mergeAll_other (batch : List postgresql.Product) (t : postgresql.Table)
    (k : Int × Int) (hk : ∀ r ∈ batch, k ≠ postgresql.key r) :
    postgresql.findRow (postgresql.mergeAll t batch).1 k = postgresql.findRow t k := by
  induction batch generalizing t with
  | nil => rfl
  | cons r rest ih =>
    show postgresql.findRow
      (postgresql.mergeAll (postgresql.mergeRow t r).1 rest).1 k = postgresql.findRow t k
    rw [ih (postgresql.mergeRow t r).1 (fun x hx => hk x (List.mem_cons_of_mem r hx)),
      findRow_mergeRow_other t r k (hk r (List.mem_cons_self r rest))]

/-- After a whole batch with pairwise distinct keys is merged, looking up
any staged row's key finds exactly that staged row. -/
theorem findRow_mergeAll_self (batch : List postgresql.Product) (t : postgresql.Table)
    (hnd : postgresql.keysNodup batch = true) :
    ∀ r ∈ batch, postgresql.findRow (postgresql.mergeAll t batch).1 (postgresql.key r) =
      some r := by
  induction batch generalizing t with
  | nil => intro r hr; cases hr
  | cons a rest ih =>
    have hparts : (∀ x ∈ rest, ¬postgresql.key x = postgresql.key a) ∧
        postgresql.keysNodup rest = true := by
      simpa [postgresql.keysNodup] using hnd
    intro r hr
    rcases List.mem_cons.mp hr with rfl | hr'
    · show postgresql.findRow
        (postgresql.mergeAll (postgresql.mergeRow t r).1 rest).1 (postgresql.key r) = some r
      rw [findRow_mergeAll_other rest (postgresql.mergeRow t r).1 (postgresql.key r)
        (fun x hx => fun hc => hparts.1 x hx hc.symm)]
      exact findRow_mergeRow_self t r
    · exact ih (postgresql.mergeRow t a).1 hparts.2 r hr'

/-- Merging a batch whose every row is already present verbatim changes
nothing and counts nothing: every row is conflict-skipped. -/
theorem mergeAll_of_all_present (batch : List postgresql.Product) (t : postgresql.Table)
    (hall : ∀ r ∈ batch, postgresql.findRow t (postgresql.key r) = some r) :
    postgresql.mergeAll t batch = (t, 0, 0) := by
  induction batch with
  | nil => rfl
  | cons a rest ih =>
    have ha := hall a (List.mem_cons_self a rest)
    have hstep : postgresql.mergeRow t a = (t, 0, 0) := by
      unfold postgresql.mergeRow
      rw [ha]
      simp
    have hrest : postgresql.mergeAll t rest = (t, 0, 0) :=
      ih (fun r hr => hall r (List.mem_cons_of_mem a hr))
    simp [postgresql.mergeAll, hstep, hrest]

/-- Inverting a successful `upsertTx`: success means every step succeeded —
in particular the batch staged cleanly and the pre-commit context check saw
a live context — and the handed-over table and tallies are exactly the
merge result. -/
theorem upsertTx_ok_inv (env : postgresql.DbEnv) (ctx : Option postgresql.CtxErr)
    (t : postgresql.Table) (batch : List postgresql.Product)
    (x : postgresql.Table × Int × Int)
    (h : postgresql.upsertTx env ctx t batch = .ok x) :
    postgresql.stageOk batch = true ∧ ctx = none ∧ x = postgresql.mergeAll t batch := by
  unfold postgresql.upsertTx at h
  split at h
  · cases h
  split at h
  · cases h
  split at h
  · cases h
  next hcopy =>
    split at h
    · cases h
    have hst : postgresql.stageOk batch = true := by
      simp only [Bool.or_eq_true, not_or, Bool.not_eq_true] at hcopy
      simpa using hcopy.2
    split at h
    · cases h
    · cases h
    next =>
      split at h
      · cases h
      injection h with h1
      exact ⟨hst, rfl, h1.symm⟩

/-- C7: `Upsert` is idempotent.  If applying a batch succeeded, producing
table `t'` with whatever `inserted`/`updated` tallies, then applying the
very same batch to `t'` again (with no injected faults and a live context)
succeeds with `inserted = 0` and `updated = 0` — every staged row conflicts
with an identical stored row, so the merge statement's `WHERE` clause skips
all of them — and leaves the table at `t'`.  Because the table is a
fixpoint, the same conclusion applies to every further application after
the first. -/
theorem c7_upsert_idempotent (env₁ : postgresql.DbEnv) (t t' : postgresql.Table)
    (batch : List postgresql.Product) (i u : Int)
    (h1 : postgresql.Upsert env₁ none t batch =
      { persisted := t', inserted := i, updated := u, err := none }) :
    postgresql.Upsert postgresql.noFaults none t' batch =
      { persisted := t', inserted := 0, updated := 0, err := none } := by
  unfold postgresql.Upsert at h1
  cases htx : postgresql.upsertTx env₁ none t batch with
  | error e =>
    rw [htx] at h1
    simp [postgresql.UpsertReturn.mk.injEq] at h1
  | ok x =>
    rw [htx] at h1
    obtain ⟨hst, -, hx⟩ := upsertTx_ok_inv env₁ none t batch x htx
    obtain ⟨xt, xi, xu⟩ := x
    simp only [postgresql.UpsertReturn.mk.injEq] at h1
    have hnd : postgresql.keysNodup batch = true := by
      unfold postgresql.stageOk at hst
      exact (Bool.and_eq_true_iff.mp hst).2
    have hxt : (postgresql.mergeAll t batch).1 = t' := by
      rw [← hx]
      exact h1.1
    have hall : ∀ r ∈ batch, postgresql.findRow t' (postgresql.key r) = some r := by
      intro r hr
      rw [← hxt]
      exact findRow_mergeAll_self batch t hnd r hr
    have hsecond : postgresql.mergeAll t' batch = (t', 0, 0) :=
      mergeAll_of_all_present batch t' hall
    unfold postgresql.Upsert postgresql.upsertTx
    simp [postgresql.noFaults, hst, hsecond]

/-- Witness for C7: after a one-row batch inserts into the empty table,
re-applying the same batch reports zero inserted and zero updated and
leaves the table as it was. -/
theorem c7_upsert_idempotent_witness :
    postgresql.Upsert postgresql.noFaults none
      [{ MerchantID := 1, OfferID := 1, Name := "a", Price := 2, Quantity := 3 }]
      [{ MerchantID := 1, OfferID := 1, Name := "a", Price := 2, Quantity := 3 }] =
      { persisted := [{ MerchantID := 1, OfferID := 1, Name := "a", Price := 2,
                        Quantity := 3 }]
        inserted := 0, updated := 0, err := none } :=
  c7_upsert_idempotent postgresql.noFaults []
    [{ MerchantID := 1, OfferID := 1, Name := "a", Price := 2, Quantity := 3 }]
    [{ MerchantID := 1, OfferID := 1, Name := "a", Price := 2, Quantity := 3 }]
    1 0 (by decide)

/-- C2: `processTask` signals at most one of the abort and result channels,
in the sense the coordinator can observe: (1) a run whose first channel
operation closes `abortChannel` performs no result send at all (the
post-send `close(abortChannel)` of the success path comes only after the
unbuffered result send has synchronized with the `select`, which runs
once); (2) on a file-open/parse failure it closes the abort channel and
does nothing else; (3) on a database error likewise; (4) on success with a
context already canceled or timed out at the re-check it suppresses the
send and exits without signalling either channel; (5) on success with a
live context its first operation is the result send carrying the computed
payload. -/
theorem c2_worker_signals_at_most_one (env : postgresql.DbEnv)
    (ctx : Option postgresql.CtxErr) (cds : Bool) (t : postgresql.Table) (openOk : Bool)
    (m : Int) (toU : List postgresql.Product) (toD : List Int) (total : Int) :
    (¬ ((task.processTask env ctx cds t openOk m toU toD total).1.head? =
          some .closeAbort ∧
        ∃ r, task.channelOp.sendResult r ∈
          (task.processTask env ctx cds t openOk m toU toD total).1)) ∧
    (openOk = false →
      (task.processTask env ctx cds t openOk m toU toD total).1 = [.closeAbort]) ∧
    (∀ t' i u d e, task.workerExec env ctx t m toU toD = .returned t' i u d (some e) →
      openOk = true →
      (task.processTask env ctx cds t openOk m toU toD total).1 = [.closeAbort]) ∧
    (∀ t' i u d, task.workerExec env ctx t m toU toD = .returned t' i u d none →
      openOk = true → cds = true →
      (task.processTask env ctx cds t openOk m toU toD total).1 = []) ∧
    (∀ t' i u d, task.workerExec env ctx t m toU toD = .returned t' i u d none →
      openOk = true → cds = false →
      (task.processTask env ctx cds t openOk m toU toD total).1 =
        [.sendResult { data := { added := i, updated := u, removed := d
                                 ignored := total - (i + u + d) }
                       error := none },
         .closeResultChan, .closeAbort]) := by
  refine ⟨?_, ?_, ?_, ?_, ?_⟩
  · cases openOk with
    | false =>
      unfold task.processTask
      simp
    | true =>
      unfold task.processTask
      rcases hw : task.workerExec env ctx t m toU toD with _ | ⟨t', i, u, d, err⟩
      · simp
      · rcases err with _ | e
        · cases cds <;> simp
        · simp
  · intro h
    subst h
    unfold task.processTask
    simp
  · intro t' i u d e hret hopen
    subst hopen
    unfold task.processTask
    simp [hret]
  · intro t' i u d hret hopen hcds
    subst hopen
    subst hcds
    unfold task.processTask
    simp [hret]
  · intro t' i u d hret hopen hcds
    subst hopen
    subst hcds
    unfold task.processTask
    simp [hret]

/-- Witness for C2: an empty parse result against a live context sends the
all-zero result first, and only then closes the channels. -/
theorem c2_worker_signals_at_most_one_witness :
    (task.processTask postgresql.noFaults none false [] true 7 [] [] 0).1 =
      [.sendResult { data := { added := 0, updated := 0, removed := 0, ignored := 0 }
                     error := none },
       .closeResultChan, .closeAbort] :=
  (c2_worker_signals_at_most_one postgresql.noFaults none false [] true 7 [] [] 0).2.2.2.2
    [] 0 0 0 (by decide) rfl rfl
